import Mathlib

/-!
Shallow embedding of the tabular cleaning pipeline of `src/index.py`
(a Streamlit script built on pandas).

A pandas `DataFrame` is modelled as an ordered list of named columns.
Each column carries a dtype: a numeric (float/int) column holds
`Option ℚ` entries (`none` is `NaN`), an object (text) column holds
`Option String` entries (`none` is `NaN`).  Row count is uniform across
columns for well-formed tables (`Table.Wf`).

Each user-facing operation of the script is translated directly:

* "Remove Duplicates" button  → `df.drop_duplicates(inplace=True)`
* "Fill Missing Values" button → `df[num] = df[num].fillna(df[num].mean())`
* column multiselect + `df = df[columns]` → `selectColumns`
* visualization checkbox → `df.select_dtypes('number').dropna()` guarded
  by `shape[1] >= 1`
* Convert button → `df.to_csv(index=False)` / `df.to_excel(index=False)`
  with the file-name and MIME computation, and `pd.read_csv` /
  `pd.read_excel` for decoding uploads.
-/

/-- A cell value as observed positionally in a table: a number, a string,
or the missing marker (pandas `NaN`). -/
inductive Cell where
  | cnum (q : ℚ)
  | ctext (s : String)
  | cmissing
deriving DecidableEq

/-- Column payload with its dtype: numeric columns (pandas float/int
dtype, `none` = `NaN`) or object/text columns. -/
inductive ColData where
  | numeric (vals : List (Option ℚ))
  | textual (vals : List (Option String))
deriving DecidableEq

/-- A table: ordered, named columns (a pandas `DataFrame`). -/
structure Table where
  cols : List (String × ColData)
deriving DecidableEq

/-- Number of entries stored in one column. -/
def colLen : ColData → Nat
  | .numeric vs => vs.length
  | .textual vs => vs.length

/-- Cell of a column at row index `i` (out-of-range reads as missing;
well-formed access stays in range). -/
def cellAt : ColData → Nat → Cell
  | .numeric vs, i =>
    match vs.getD i none with
    | some q => .cnum q
    | none => .cmissing
  | .textual vs, i =>
    match vs.getD i none with
    | some s => .ctext s
    | none => .cmissing

/-- Column names of the table, in order (`df.columns`). -/
def Table.names (T : Table) : List String := T.cols.map Prod.fst

/-- Row count of the table (length of the first column; `0` for a
column-less table). -/
def Table.nrows (T : Table) : Nat :=
  match T.cols with
  | [] => 0
  | c :: _ => colLen c.2

/-- Well-formedness: every column has the same length. -/
def Table.Wf (T : Table) : Prop := ∀ c ∈ T.cols, colLen c.2 = T.nrows

instance (T : Table) : Decidable T.Wf := by
  unfold Table.Wf; infer_instance

/-- Row `i` of the table, as the list of its cells across all columns. -/
def Table.row (T : Table) (i : Nat) : List Cell :=
  T.cols.map (fun c => cellAt c.2 i)

/-- All rows of the table, in order. -/
def rowsList (T : Table) : List (List Cell) :=
  (List.range T.nrows).map T.row

/-! ### Fill Missing Values (`src/index.py` lines 218-221)

`numeric_cols = df.select_dtypes(include=[np.number]).columns`
`df[numeric_cols] = df[numeric_cols].fillna(df[numeric_cols].mean())`

pandas `mean()` skips `NaN`; the mean of an all-`NaN` column is `NaN`,
and `fillna(NaN)` leaves the column untouched. -/

/-- Mean of the non-missing entries of a numeric column
(`Series.mean()`, `skipna=True`): `none` when every entry is missing. -/
def colMean (vs : List (Option ℚ)) : Option ℚ :=
  let p := vs.filterMap id
  if p.length = 0 then none else some (p.sum / (p.length : ℚ))

/-- `fillna(mean)` on a single column: numeric columns get every missing
entry replaced by the column mean (when defined); text columns and
all-missing numeric columns are unchanged. -/
def fillCol : ColData → ColData
  | .numeric vs =>
    match colMean vs with
    | none => .numeric vs
    | some m => .numeric (vs.map (fun v => some (v.getD m)))
  | .textual vs => .textual vs

/-- The "Fill Missing Values" button action. -/
def fillMissingNumeric (T : Table) : Table :=
  ⟨T.cols.map (fun c => (c.1, fillCol c.2))⟩

/-- `true` iff some numeric column of `T` has no non-missing entry
(undefined mean). -/
def hasAllMissingNumericCol (T : Table) : Bool :=
  T.cols.any (fun c =>
    match c.2 with
    | .numeric vs => vs.filterMap id == []
    | .textual _ => false)

/-! ### Remove Duplicates (`src/index.py` lines 213-215)

`df.drop_duplicates(inplace=True)`: keeps the first occurrence of each
row, comparing all columns (pandas treats `NaN` as equal to `NaN` for
this comparison, as does our `Cell` equality). -/

/-- Row indices kept by `drop_duplicates`: index `i` survives iff no
earlier row is equal to row `i`. -/
def keptIndices (T : Table) : List Nat :=
  (List.range T.nrows).filter
    (fun i => (List.range i).all (fun j => decide (T.row j ≠ T.row i)))

/-- Restrict one column to the rows listed in `keep` (in that order). -/
def selectRows (d : ColData) (keep : List Nat) : ColData :=
  match d with
  | .numeric vs => .numeric (keep.map (fun i => vs.getD i none))
  | .textual vs => .textual (keep.map (fun i => vs.getD i none))

/-- Restrict a whole table to the rows listed in `keep` (in that order). -/
def applyKeep (T : Table) (keep : List Nat) : Table :=
  ⟨T.cols.map (fun c => (c.1, selectRows c.2 keep))⟩

/-- The "Remove Duplicates" button action (`df.drop_duplicates`). -/
def removeDuplicates (T : Table) : Table :=
  applyKeep T (keptIndices T)

/-! ### Column selection (`src/index.py` lines 225-226)

`columns = st.multiselect(..., df.columns, default=df.columns)` then
`df = df[columns]`.  Projecting on a label list raises `KeyError` when a
label is absent; otherwise the result carries the requested columns in
the requested order. -/

/-- Error raised by projecting a table onto a missing column name
(pandas `KeyError`; the spec's `ColumnError`). -/
inductive ColumnError where
  | columnNotFound
deriving DecidableEq

/-- First column of `T` carrying name `n` (column names are unique in
well-formed pandas frames, so this is the column labelled `n`). -/
def findCol (T : Table) (n : String) : Option (String × ColData) :=
  T.cols.find? (fun c => c.1 == n)

/-- `df[names]`: fails on any unknown label, otherwise projects onto the
requested labels in the requested order. -/
def selectColumns (T : Table) (names : List String) : Except ColumnError Table :=
  if names.all (fun n => (findCol T n).isSome) then
    .ok ⟨names.filterMap (findCol T)⟩
  else
    .error .columnNotFound

/-! ### Visualization (`src/index.py` lines 230-235)

`numeric_data = df.select_dtypes(include=['number']).dropna()`
`if numeric_data.shape[1] >= 1: st.bar_chart(numeric_data)`
`else: st.write("no valid numeric data")` -/

/-- `df.select_dtypes(include=['number'])`: keep numeric-dtype columns. -/
def selectNumericCols (T : Table) : Table :=
  ⟨T.cols.filter (fun c =>
    match c.2 with
    | .numeric _ => true
    | .textual _ => false)⟩

/-- Row indices without any missing entry across the table's columns
(`dropna()` on the numeric sub-table keeps these). -/
def completeIndices (T : Table) : List Nat :=
  (List.range T.nrows).filter
    (fun i => (T.row i).all (fun c => !(c == Cell.cmissing)))

/-- `DataFrame.dropna()`: drop every row containing a missing entry. -/
def dropnaRows (T : Table) : Table :=
  applyKeep T (completeIndices T)

/-- The visualization branch: `some chartData` when a bar chart is
drawn, `none` for the explicit "no valid numeric data" message. -/
def visualize (T : Table) : Option Table :=
  let nd := dropnaRows (selectNumericCols T)
  if 1 ≤ nd.cols.length then some nd else none

/-! ### File extension handling (`src/index.py` line 185)

`file_ext = os.path.splitext(file.name)[-1].lower()`.

`os.path.splitext` takes the extension from the last dot of the name,
except that a name whose characters before that dot are all dots (such
as `".csv"` or `"..."`) has no extension.  Uploaded names carry no
directory separators. -/

/-- Extension part of `os.path.splitext`: the suffix starting at the
last dot that has some non-dot character before it; `""` otherwise. -/
def splitextExt (s : String) : String :=
  let cs := s.toList
  let idxs := (List.range cs.length).filter (fun i =>
    cs.getD i ' ' == '.' && (List.range i).any (fun j => cs.getD j ' ' != '.'))
  match idxs.getLast? with
  | some i => String.mk (cs.drop i)
  | none => ""

/-- `str.lower()` on the extension (character-wise lowercasing; upload
extensions are ASCII). -/
def strLower (s : String) : String := String.mk (s.toList.map Char.toLower)

/-- `os.path.splitext(name)[-1].lower()` as computed at line 185. -/
def lowerExt (name : String) : String := strLower (splitextExt name)

/-! ### Per-file upload processing (`src/index.py` lines 183-198)

Each uploaded file is handled independently inside the `for` loop:
a `.csv` name goes to `pd.read_csv`, a `.xlsx` name to `pd.read_excel`,
any other name is reported invalid without touching the bytes; a parse
exception is reported; in all three cases `continue` moves to the next
file. -/

/-- What the two decoders would give on an uploaded file's bytes:
`none` means the bytes raise a parse exception for that decoder. -/
structure FileBytes where
  asCsv : Option Table
  asXlsx : Option Table

/-- One uploaded file: a name and its bytes. -/
structure UploadedFile where
  name : String
  bytes : FileBytes

/-- File-scoped failures of the upload loop: unsupported extension
(the `else` branch) or a decoder exception (the `except` branch). -/
inductive FileError where
  | unsupportedFormat
  | decodeError
deriving DecidableEq

/-- The extension dispatch and decode of one file (lines 185-198). -/
def readFile (f : UploadedFile) : Except FileError Table :=
  let ext := lowerExt f.name
  if ext == ".csv" then
    match f.bytes.asCsv with
    | some t => .ok t
    | none => .error .decodeError
  else if ext == ".xlsx" then
    match f.bytes.asXlsx with
    | some t => .ok t
    | none => .error .decodeError
  else
    .error .unsupportedFormat

/-- The upload loop: every file is processed in order and yields exactly
one outcome; each failure is recorded and the loop continues. -/
def processBatch : List UploadedFile → List (String × Except FileError Table)
  | [] => []
  | f :: fs => (f.name, readFile f) :: processBatch fs

/-! ### Conversion output name and MIME (`src/index.py` lines 241-260)

`file_name = file.name.replace(file_ext, ".csv")` (resp. `".xlsx"`),
`mime_type = "text/csv"` (resp. the spreadsheet MIME).  Python's
`str.replace` replaces every occurrence of the pattern, and `file_ext`
is the lowercased extension. -/

/-- Output format chosen in the radio group ("CSV" / "Excel"). -/
inductive Format where
  | csv
  | xlsx
deriving DecidableEq

/-- Extension written for each target format. -/
def extFor : Format → String
  | .csv => ".csv"
  | .xlsx => ".xlsx"

/-- MIME type attached to the download button for each target format. -/
def mimeFor : Format → String
  | .csv => "text/csv"
  | .xlsx => "application/vnd.openxmlformats-officedocument.spreadsheetml.sheet"

/-- Fuel-driven scanner behind `pyReplace`; replaces every
non-overlapping occurrence of `pat` from the left.  `fuel` at least the
length of the scanned list makes the fuel guard unreachable. -/
def replaceAllAux (rep pat : List Char) : Nat → List Char → List Char
  | _, [] => []
  | 0, s => s
  | fuel + 1, c :: rest =>
    if pat.isPrefixOf (c :: rest) then
      rep ++ replaceAllAux rep pat fuel ((c :: rest).drop pat.length)
    else
      c :: replaceAllAux rep pat fuel rest

/-- Python `str.replace(pat, rep)` (all occurrences; for the empty
pattern Python inserts `rep` around every character). -/
def pyReplace (s pat rep : String) : String :=
  if pat.toList = [] then
    String.mk (rep.toList ++ s.toList.flatMap (fun c => c :: rep.toList))
  else
    String.mk (replaceAllAux rep.toList pat.toList s.toList.length s.toList)

/-- `file.name.replace(file_ext, extFor fmt)` as computed at lines
245 and 250. -/
def outputName (origName : String) (fmt : Format) : String :=
  pyReplace origName (lowerExt origName) (extFor fmt)

/-! ### The convert/download block as an effect trace

The body of `if st.button(f"Convert {file.name}")` performs, in order:
encode into the buffer, rewind the buffer, offer the download button.
There is no `time.sleep` (nor any other delay call) anywhere in
`src/index.py`. -/

/-- Observable side effects of the convert block. -/
inductive Effect where
  | encodeTable (fmt : Format)
  | rewindBuffer
  | offerDownload (fileName mime : String)
  | sleep (seconds : Nat)
deriving DecidableEq

/-- `true` only on an intentional-delay effect. -/
def Effect.isSleep : Effect → Bool
  | .sleep _ => true
  | _ => false

/-- Effect trace of the convert block (lines 241-260) for a file of the
given name and a chosen output format. -/
def convertSteps (name : String) (fmt : Format) : List Effect :=
  [ .encodeTable fmt,
    .rewindBuffer,
    .offerDownload (outputName name fmt) (mimeFor fmt) ]

/-! ### Encoding and decoding (`src/index.py` lines 188-192, 243-249)

Encoding: `df.to_csv(buffer, index=False)` and
`df.to_excel(writer, index=False)`.  Both write a header row and then
one record per table row with no index column; a missing value is
written as the empty field (default `na_rep`).  We model the byte
buffer at field granularity (`Grid`): the CSV quoting layer and the
worksheet cell layer are faithful round-trips at that granularity.

Decoding: `pd.read_csv` / `pd.read_excel`.  Per field, any default NA
token (in particular the empty field) reads as missing; a column whose
fields are all numeric-looking or NA gets a numeric dtype, any other
column keeps its fields as text.  Two row-level quirks are modelled:
`read_csv` skips fully blank lines (a record of a single-column table
all of whose fields are empty), and a trailing all-blank record of a
worksheet is outside the sheet's used range, so `read_excel` does not
see it (pandas writes blank cells for `NaN`/empty strings, and
`xlsxwriter` drops unformatted blank cells). -/

/-- Scenario B/C shaped table: a numeric column with a gap and a text
column with a gap. -/
def exC1 : Table :=
  ⟨[("n", ColData.numeric [some 1, none, some 3]),
    ("t", ColData.textual [some "a", none, some "b"])]⟩

/-- Scenario A table: rows `(1,"a")`, `(1,"a")`, `(2,"b")`. -/
def exC2 : Table :=
  ⟨[("c1", ColData.numeric [some 1, some 1, some 2]),
    ("c2", ColData.textual [some "a", some "a", some "b"])]⟩

/-- Scenario E shaped table with columns `id`, `name`, `score`. -/
def exC4 : Table :=
  ⟨[("id", ColData.numeric [some 1]),
    ("name", ColData.textual [some "a"]),
    ("score", ColData.numeric [some 10])]⟩

/-- Scenario D batch: a `.txt` file (with parseable bytes!), a broken
`.csv`, and a good `.csv`. -/
def exC5 : List UploadedFile :=
  [⟨"data.txt", ⟨some exC1, some exC1⟩⟩,
   ⟨"bad.csv", ⟨none, none⟩⟩,
   ⟨"good.csv", ⟨some exC1, none⟩⟩]

/-- A table whose only numeric column has a defined mean. -/
def exC6 : Table :=
  ⟨[("n", ColData.numeric [some 1, none])]⟩

/-- A table with one numeric column (with a gap) and one text column. -/
def exC7 : Table :=
  ⟨[("n", ColData.numeric [some 1, none, some 3]),
    ("t", ColData.textual [some "a", some "b", none])]⟩

/-! ### General helper lemmas -/

/-- Reading every position of a list through `getD` reproduces it. -/
theorem range_map_getD (l : List α) (d : α) :
    (List.range l.length).map (fun i => l.getD i d) = l := by
  apply List.ext_getElem?
  intro n
  by_cases h : n < l.length
  · simp [List.getElem?_map, List.getElem?_range h, List.getD_eq_getElem?_getD,
      List.getElem?_eq_getElem h]
  · have h1 : (List.range l.length)[n]? = none := by
      simp [List.getElem?_eq_none_iff, Nat.le_of_not_lt h]
    have h2 : l[n]? = none := by
      simp [List.getElem?_eq_none_iff, Nat.le_of_not_lt h]
    simp [List.getElem?_map, h1, h2]

/-- A map every point of which is fixed is the identity. -/
theorem map_eq_self_of {l : List α} {f : α → α} (h : ∀ x ∈ l, f x = x) :
    l.map f = l := by
  induction l with
  | nil => rfl
  | cons a l ih =>
    simp only [List.map_cons, h a (List.mem_cons_self a l)]
    rw [ih (fun x hx => h x (List.mem_cons_of_mem a hx))]

/-- `filterMap` by an everywhere-defined function reads positionally. -/
theorem filterMap_getElem?_of_isSome {l : List α} {f : α → Option β}
    (h : ∀ x ∈ l, (f x).isSome) (k : Nat) :
    (l.filterMap f)[k]? = l[k]?.bind f := by
  induction l generalizing k with
  | nil => simp
  | cons a l ih =>
    obtain ⟨b, hb⟩ := Option.isSome_iff_exists.mp (h a (List.mem_cons_self a l))
    have hl : ∀ x ∈ l, (f x).isSome := fun x hx => h x (List.mem_cons_of_mem a hx)
    cases k with
    | zero => simp [List.filterMap_cons, hb]
    | succ k => simp [List.filterMap_cons, hb, ih hl]

/-- Extract an ordered relation instance from `Pairwise` over `range`. -/
theorem pairwise_range_rel {R : Nat → Nat → Prop} {n : Nat}
    (h : List.Pairwise R (List.range n)) {i j : Nat}
    (hij : i < j) (hj : j < n) : R i j := by
  have := List.pairwise_iff_getElem.mp h i j (by simpa using Nat.lt_trans hij hj)
    (by simpa using hj) hij
  simpa using this

/-- Length of a row-restricted column. -/
theorem colLen_selectRows (d : ColData) (keep : List Nat) :
    colLen (selectRows d keep) = keep.length := by
  cases d <;> simp [selectRows, colLen]

/-- Cell of a row-restricted column, positionally. -/
theorem cellAt_selectRows {d : ColData} {keep : List Nat} {k i : Nat}
    (hk : keep[k]? = some i) :
    cellAt (selectRows d keep) k = cellAt d i := by
  cases d with
  | numeric vs =>
    simp [selectRows, cellAt, List.getD_eq_getElem?_getD, List.getElem?_map, hk]
  | textual vs =>
    simp [selectRows, cellAt, List.getD_eq_getElem?_getD, List.getElem?_map, hk]

/-- Column names survive row restriction. -/
theorem applyKeep_names (T : Table) (keep : List Nat) :
    (applyKeep T keep).names = T.names := by
  simp [applyKeep, Table.names, List.map_map, Function.comp]

/-- Row count of a row-restricted table with at least one column. -/
theorem applyKeep_nrows {T : Table} (hT : T.cols ≠ []) (keep : List Nat) :
    (applyKeep T keep).nrows = keep.length := by
  cases hc : T.cols with
  | nil => exact absurd hc hT
  | cons c cs => simp [applyKeep, Table.nrows, hc, colLen_selectRows]

/-- Row `k` of a row-restricted table is row `keep[k]` of the original. -/
theorem applyKeep_row {T : Table} {keep : List Nat} {k i : Nat}
    (hk : keep[k]? = some i) :
    (applyKeep T keep).row k = T.row i := by
  simp only [applyKeep, Table.row, List.map_map]
  exact List.map_congr_left (fun c _ => cellAt_selectRows hk)

/-- The rows of a row-restricted table are exactly the selected rows of
the original, in selection order (for in-range selections). -/
theorem rowsList_applyKeep (T : Table) (keep : List Nat)
    (hk : ∀ i ∈ keep, i < T.nrows) :
    rowsList (applyKeep T keep) = keep.map T.row := by
  cases hc : T.cols with
  | nil =>
    have h0 : T.nrows = 0 := by simp [Table.nrows, hc]
    have hke : keep = [] := by
      cases keep with
      | nil => rfl
      | cons i l =>
        exact absurd (hk i (List.mem_cons_self i l)) (by omega)
    simp [hke, rowsList, applyKeep, Table.nrows, hc]
  | cons c cs =>
    have hT : T.cols ≠ [] := by simp [hc]
    apply List.ext_getElem?
    intro n
    by_cases hn : n < keep.length
    · obtain ⟨i, hi⟩ : ∃ i, keep[n]? = some i :=
        ⟨keep[n], List.getElem?_eq_getElem hn⟩
      have h1 : (List.range (applyKeep T keep).nrows)[n]? = some n := by
        rw [applyKeep_nrows hT keep]; exact List.getElem?_range hn
      simp [rowsList, List.getElem?_map, h1, hi, applyKeep_row hi]
    · have h1 : (List.range (applyKeep T keep).nrows)[n]? = none := by
        rw [applyKeep_nrows hT keep]
        simp [List.getElem?_eq_none_iff, Nat.le_of_not_lt hn]
      simp [rowsList, List.getElem?_map, h1,
        List.getElem?_eq_none_iff.mpr (Nat.le_of_not_lt hn)]

/-! ### Claim C1: Fill Missing Values -/

/-- Claim C1: `fillMissingNumeric` keeps the column names and the column
count; every non-numeric column is unchanged; a numeric column whose
values are all missing is unchanged; a numeric column with at least one
value present gets every missing entry replaced by the arithmetic mean
of its non-missing values while present entries are untouched, and the
operation never fails (it is a total function). -/
theorem fillMissingNumeric_spec (T : Table) :
    (fillMissingNumeric T).names = T.names ∧
    (fillMissingNumeric T).cols.length = T.cols.length ∧
    ∀ (k : Nat) (name : String) (d : ColData), T.cols[k]? = some (name, d) →
      (∀ vs, d = ColData.textual vs →
        (fillMissingNumeric T).cols[k]? = some (name, ColData.textual vs)) ∧
      (∀ vs, d = ColData.numeric vs →
        (vs.filterMap id = [] →
          (fillMissingNumeric T).cols[k]? = some (name, ColData.numeric vs)) ∧
        (vs.filterMap id ≠ [] →
          ∃ ws, (fillMissingNumeric T).cols[k]? = some (name, ColData.numeric ws) ∧
            ws.length = vs.length ∧
            ∀ i, i < vs.length →
              (vs.getD i none = none →
                ws.getD i none =
                  some ((vs.filterMap id).sum / ((vs.filterMap id).length : ℚ))) ∧
              (∀ q, vs.getD i none = some q → ws.getD i none = some q))) := by
  refine ⟨?_, ?_, ?_⟩
  · simp [fillMissingNumeric, Table.names, List.map_map, Function.comp]
  · simp [fillMissingNumeric]
  · intro k name d hk
    have hfk : (fillMissingNumeric T).cols[k]? = some (name, fillCol d) := by
      simp [fillMissingNumeric, List.getElem?_map, hk]
    constructor
    · rintro vs rfl
      simpa [fillCol] using hfk
    · rintro vs rfl
      constructor
      · intro hvs
        have hm : colMean vs = none := by
          simp [colMean, hvs]
        simpa [fillCol, hm] using hfk
      · intro hvs
        have hlen : (vs.filterMap id).length ≠ 0 := by
          simpa [List.length_eq_zero] using hvs
        have hm : colMean vs =
            some ((vs.filterMap id).sum / ((vs.filterMap id).length : ℚ)) := by
          simp [colMean, hlen]
        refine ⟨vs.map (fun v =>
          some (v.getD ((vs.filterMap id).sum / ((vs.filterMap id).length : ℚ)))),
          ?_, by simp, ?_⟩
        · simpa [fillCol, hm] using hfk
        · intro i hi
          have hvi : vs[i]? = some vs[i] := List.getElem?_eq_getElem hi
          have hgd : vs.getD i none = vs[i] := by
            simp [List.getD_eq_getElem?_getD, hvi]
          constructor
          · intro h0
            rw [hgd] at h0
            simp [List.getD_eq_getElem?_getD, List.getElem?_map, hvi, h0]
          · intro q hq
            rw [hgd] at hq
            simp [List.getD_eq_getElem?_getD, List.getElem?_map, hvi, hq]

/-- Witness for C1 at the Scenario B/C table `exC1`: the numeric column
`[1, missing, 3]` is filled to `[1, 2, 3]` (its mean is `2`). -/
theorem fillMissingNumeric_spec_witness :
    ∃ ws, (fillMissingNumeric exC1).cols[0]? = some ("n", ColData.numeric ws) ∧
      ws.length = 3 ∧
      ∀ i, i < 3 →
        ((([some (1:ℚ), none, some 3]).getD i none = none →
          ws.getD i none =
            some ((([some (1:ℚ), none, some 3]).filterMap id).sum /
              ((([some (1:ℚ), none, some 3]).filterMap id).length : ℚ))) ∧
         (∀ q, ([some (1:ℚ), none, some 3]).getD i none = some q →
          ws.getD i none = some q)) :=
  (((fillMissingNumeric_spec exC1).2.2 0 "n"
      (ColData.numeric [some 1, none, some 3]) rfl).2
    [some 1, none, some 3] rfl).2 (by decide)

/-! ### Claim C6: idempotence of Fill Missing Values -/

/-- Second application of `fillna(mean)` to a column whose mean was
defined changes nothing: the first pass left no missing entry. -/
theorem fillCol_fillCol {vs : List (Option ℚ)} (h : vs.filterMap id ≠ []) :
    fillCol (fillCol (ColData.numeric vs)) = fillCol (ColData.numeric vs) := by
  have hlen : (vs.filterMap id).length ≠ 0 := by
    simpa [List.length_eq_zero] using h
  have hvs : vs ≠ [] := by
    intro hv
    exact h (by simp [hv])
  set m : ℚ := (vs.filterMap id).sum / ((vs.filterMap id).length : ℚ) with hm_def
  have hm : colMean vs = some m := by
    simp [colMean, hlen, hm_def]
  have h1 : fillCol (ColData.numeric vs) =
      ColData.numeric (vs.map (fun v => some (v.getD m))) := by
    simp [fillCol, hm]
  rw [h1]
  have hfm : (vs.map (fun v => some (v.getD m))).filterMap id =
      vs.map (fun v => v.getD m) := by
    rw [List.filterMap_map]
    exact List.filterMap_eq_map _ ▸ rfl
  have hlen2 : ((vs.map (fun v => some (v.getD m))).filterMap id).length ≠ 0 := by
    rw [hfm, List.length_map]
    intro h0
    exact hvs (List.length_eq_zero.mp h0)
  set m2 : ℚ := (((vs.map (fun v => some (v.getD m))).filterMap id).sum /
    (((vs.map (fun v => some (v.getD m))).filterMap id).length : ℚ)) with hm2_def
  have hm2 : colMean (vs.map (fun v => some (v.getD m))) = some m2 := by
    simp only [colMean]
    rw [if_neg hlen2, hm2_def]
  have h2 : fillCol (ColData.numeric (vs.map (fun v => some (v.getD m)))) =
      ColData.numeric ((vs.map (fun v => some (v.getD m))).map
        (fun v => some (v.getD m2))) := by
    simp [fillCol, hm2]
  rw [h2, List.map_map]
  rfl

/-- Claim C6: applying `fillMissingNumeric` twice equals applying it
once, on any table with no all-missing numeric column. -/
theorem fillMissingNumeric_idem (T : Table)
    (h : hasAllMissingNumericCol T = false) :
    fillMissingNumeric (fillMissingNumeric T) = fillMissingNumeric T := by
  have hcols : ∀ c ∈ T.cols, ∀ vs, c.2 = ColData.numeric vs →
      vs.filterMap id ≠ [] := by
    intro c hc vs hvs
    intro hempty
    have : T.cols.any (fun c =>
        match c.2 with
        | .numeric vs => vs.filterMap id == []
        | .textual _ => false) = true := by
      rw [List.any_eq_true]
      exact ⟨c, hc, by rw [hvs]; simpa using hempty⟩
    rw [hasAllMissingNumericCol] at h
    rw [h] at this
    exact Bool.false_ne_true this
  show Table.mk _ = Table.mk _
  congr 1
  simp only [fillMissingNumeric, List.map_map]
  apply List.map_congr_left
  intro c hc
  simp only [Function.comp]
  congr 1
  cases hd : c.2 with
  | textual vs => simp [fillCol]
  | numeric vs => exact fillCol_fillCol (hcols c hc vs hd)

/-- Witness for C6 at `exC6`, whose numeric column `[1, missing]` has a
defined mean. -/
theorem fillMissingNumeric_idem_witness :
    fillMissingNumeric (fillMissingNumeric exC6) = fillMissingNumeric exC6 :=
  fillMissingNumeric_idem exC6 (by decide)

/-! ### Claim C2: Remove Duplicates -/

/-- Keeping every row index of a well-formed table is the identity. -/
theorem applyKeep_range {T : Table} (hT : T.Wf) :
    applyKeep T (List.range T.nrows) = T := by
  show Table.mk _ = T
  have : T.cols.map (fun c => (c.1, selectRows c.2 (List.range T.nrows))) = T.cols := by
    apply map_eq_self_of
    intro c hc
    have hlen : colLen c.2 = T.nrows := hT c hc
    have hsel : selectRows c.2 (List.range T.nrows) = c.2 := by
      cases hd : c.2 with
      | numeric vs =>
        have : vs.length = T.nrows := by rw [← hlen, hd]; rfl
        simp only [selectRows, ← this, range_map_getD]
      | textual vs =>
        have : vs.length = T.nrows := by rw [← hlen, hd]; rfl
        simp only [selectRows, ← this, range_map_getD]
    rw [hsel]
  rw [this]

/-- Claim C2: `removeDuplicates` keeps the column names; its rows are
exactly the rows at the kept indices; an index is kept iff it is in
range and no earlier row equals its row (first occurrences survive,
duplicates of an earlier row are removed); the kept indices are
strictly increasing (relative order preserved); and a table with
pairwise distinct rows is left unchanged. -/
theorem removeDuplicates_spec (T : Table) (hT : T.Wf) :
    (removeDuplicates T).names = T.names ∧
    rowsList (removeDuplicates T) = (keptIndices T).map T.row ∧
    (∀ i : Nat, i ∈ keptIndices T ↔
      i < T.nrows ∧ ∀ j, j < i → T.row j ≠ T.row i) ∧
    List.Pairwise (· < ·) (keptIndices T) ∧
    (List.Pairwise (· ≠ ·) (rowsList T) → removeDuplicates T = T) := by
  have hmem : ∀ i ∈ keptIndices T, i < T.nrows := by
    intro i hi
    have := List.mem_filter.mp hi
    exact List.mem_range.mp this.1
  refine ⟨applyKeep_names T _, rowsList_applyKeep T _ hmem, ?_, ?_, ?_⟩
  · intro i
    constructor
    · intro hi
      obtain ⟨h1, h2⟩ := List.mem_filter.mp hi
      refine ⟨List.mem_range.mp h1, ?_⟩
      intro j hj
      have := List.all_eq_true.mp h2 j (List.mem_range.mpr hj)
      exact of_decide_eq_true this
    · intro ⟨h1, h2⟩
      apply List.mem_filter.mpr
      refine ⟨List.mem_range.mpr h1, ?_⟩
      apply List.all_eq_true.mpr
      intro j hj
      exact decide_eq_true (h2 j (List.mem_range.mp hj))
  · exact List.Pairwise.sublist (List.filter_sublist _) (List.pairwise_lt_range _)
  · intro hnd
    have hpw : List.Pairwise (fun a b => T.row a ≠ T.row b) (List.range T.nrows) := by
      rw [rowsList] at hnd
      exact (List.pairwise_map).mp hnd
    have hkeep : keptIndices T = List.range T.nrows := by
      apply List.filter_eq_self.mpr
      intro i hi
      apply List.all_eq_true.mpr
      intro j hj
      apply decide_eq_true
      exact pairwise_range_rel hpw (List.mem_range.mp hj) (List.mem_range.mp hi)
    rw [removeDuplicates, hkeep]
    exact applyKeep_range hT

/-- Witness for C2 at the Scenario A table `exC2` (rows `(1,"a")`,
`(1,"a")`, `(2,"b")`): the surviving rows are the rows at the kept
indices (which are `[0, 2]`). -/
theorem removeDuplicates_spec_witness :
    rowsList (removeDuplicates exC2) = (keptIndices exC2).map exC2.row ∧
    keptIndices exC2 = [0, 2] :=
  ⟨(removeDuplicates_spec exC2 (by decide)).2.1, by decide⟩

/-! ### Claims C4 and C10: column selection -/

/-- A label is findable exactly when it is one of the column names. -/
theorem findCol_isSome_iff (T : Table) (n : String) :
    (findCol T n).isSome ↔ n ∈ T.names := by
  rw [findCol, List.find?_isSome]
  constructor
  · rintro ⟨c, hc, hp⟩
    have : c.1 = n := by simpa using hp
    exact this ▸ List.mem_map_of_mem Prod.fst hc
  · intro hn
    obtain ⟨c, hc, hcn⟩ := List.mem_map.mp hn
    exact ⟨c, hc, by simp [hcn]⟩

/-- Projecting on all-found labels returns them as the column names in
the requested order. -/
theorem map_fst_filterMap_findCol (T : Table) (names : List String)
    (h : ∀ n ∈ names, (findCol T n).isSome) :
    (names.filterMap (findCol T)).map Prod.fst = names := by
  induction names with
  | nil => rfl
  | cons n ns ih =>
    obtain ⟨c, hc⟩ := Option.isSome_iff_exists.mp (h n (List.mem_cons_self n ns))
    have hcn : c.1 = n := by simpa using List.find?_some hc
    rw [List.filterMap_cons, hc, List.map_cons, hcn,
      ih (fun x hx => h x (List.mem_cons_of_mem n hx))]

/-- Claim C4: `df[names]` fails with `ColumnError` when some requested
name is not a column of `T`; when every requested name is a column, the
result has exactly the requested names, in the requested order, and its
`k`-th column is `T`'s column named `names[k]`. -/
theorem selectColumns_spec (T : Table) (names : List String) :
    ((∃ n ∈ names, n ∉ T.names) →
      selectColumns T names = .error .columnNotFound) ∧
    ((∀ n ∈ names, n ∈ T.names) →
      ∃ T', selectColumns T names = .ok T' ∧
        T'.names = names ∧
        ∀ k : Nat, T'.cols[k]? = (names[k]?).bind (findCol T)) := by
  constructor
  · rintro ⟨n, hn, hnotin⟩
    rw [selectColumns, if_neg]
    intro hall
    exact hnotin ((findCol_isSome_iff T n).mp (List.all_eq_true.mp hall n hn))
  · intro hall
    have hSome : ∀ n ∈ names, (findCol T n).isSome :=
      fun n hn => (findCol_isSome_iff T n).mpr (hall n hn)
    rw [selectColumns, if_pos (List.all_eq_true.mpr hSome)]
    refine ⟨_, rfl, map_fst_filterMap_findCol T names hSome, ?_⟩
    intro k
    exact filterMap_getElem?_of_isSome hSome k

/-- Witness for C4 at the Scenario E table `exC4` (columns `id`,
`name`, `score`) and selection `["score", "id"]`. -/
theorem selectColumns_spec_witness :
    ∃ T', selectColumns exC4 ["score", "id"] = .ok T' ∧
      T'.names = ["score", "id"] ∧
      ∀ k : Nat, T'.cols[k]? = (["score", "id"][k]?).bind (findCol exC4) :=
  (selectColumns_spec exC4 ["score", "id"]).2 (by decide)

/-- Claim C10: the multiselect offers `df.columns` as its options, so
any selection it returns is a list of current column names; projecting
the table on such a selection always succeeds, making the
`ColumnError`/`KeyError` branch unreachable in the program as written. -/
theorem selection_error_unreachable (T : Table) (sel : List String)
    (hsel : ∀ n ∈ sel, n ∈ T.names) :
    ∃ T', selectColumns T sel = .ok T' := by
  have hSome : ∀ n ∈ sel, (findCol T n).isSome :=
    fun n hn => (findCol_isSome_iff T n).mpr (hsel n hn)
  rw [selectColumns, if_pos (List.all_eq_true.mpr hSome)]
  exact ⟨_, rfl⟩

/-- Witness for C10 at `exC4` with the selection `["name"]` drawn from
its columns. -/
theorem selection_error_unreachable_witness :
    ∃ T', selectColumns exC4 ["name"] = .ok T' :=
  selection_error_unreachable exC4 ["name"] (by decide)

/-! ### Claim C7: visualization -/

/-- `visualize` unfolded to its branch on the numeric column count. -/
theorem visualize_eq_ite (T : Table) :
    visualize T =
      if 1 ≤ (dropnaRows (selectNumericCols T)).cols.length then
        some (dropnaRows (selectNumericCols T))
      else none := rfl

/-- `dropna` does not change the column count. -/
theorem dropna_cols_len (T : Table) :
    (dropnaRows T).cols.length = T.cols.length := by
  simp [dropnaRows, applyKeep]

/-- Claim C7: the visualization branch signals "no valid numeric data"
exactly when the table has no numeric column; otherwise the charted
table consists of the numeric columns only (same names, all numeric),
with exactly the rows of the numeric sub-table that contain no missing
value, in order. -/
theorem visualize_spec (T : Table) :
    (visualize T = none ↔ (selectNumericCols T).cols = []) ∧
    (∀ C, visualize T = some C →
      C.names = (selectNumericCols T).names ∧
      (∀ c ∈ C.cols, ∃ vs, c.2 = ColData.numeric vs) ∧
      rowsList C = (rowsList (selectNumericCols T)).filter
        (fun r => r.all (fun c => !(c == Cell.cmissing)))) := by
  have hrw := visualize_eq_ite T
  constructor
  · rw [hrw]
    by_cases hc : 1 ≤ (dropnaRows (selectNumericCols T)).cols.length
    · rw [if_pos hc]
      constructor
      · intro h
        exact absurd h (by simp)
      · intro h0
        exfalso
        rw [dropna_cols_len, h0] at hc
        simp at hc
    · rw [if_neg hc]
      constructor
      · intro _
        have h0 : (selectNumericCols T).cols.length = 0 := by
          rw [← dropna_cols_len]; omega
        exact List.length_eq_zero.mp h0
      · intro _
        rfl
  · intro C hC
    rw [hrw] at hC
    by_cases hc : 1 ≤ (dropnaRows (selectNumericCols T)).cols.length
    · rw [if_pos hc] at hC
      obtain rfl := (Option.some.inj hC).symm
      refine ⟨applyKeep_names _ _, ?_, ?_⟩
      · intro c hc2
        obtain ⟨c0, hc0, rfl⟩ := List.mem_map.mp hc2
        have hc1 := List.mem_filter.mp hc0
        cases h2 : c0.2 with
        | numeric vs =>
          exact ⟨(completeIndices (selectNumericCols T)).map
            (fun i => vs.getD i none), by simp [selectRows, h2]⟩
        | textual vs =>
          exfalso
          have := hc1.2
          rw [h2] at this
          exact Bool.false_ne_true this
      · have hb : ∀ i ∈ completeIndices (selectNumericCols T),
            i < (selectNumericCols T).nrows := by
          intro i hi
          exact List.mem_range.mp (List.mem_filter.mp hi).1
        rw [dropnaRows, rowsList_applyKeep _ _ hb, completeIndices,
          rowsList, List.filter_map]
        rfl
    · rw [if_neg hc] at hC
      exact absurd hC (by simp)

/-- Witness for C7 at `exC7` (numeric column `[1, missing, 3]`, text
column): the chart data is the numeric column restricted to its
complete rows `[1, 3]`. -/
theorem visualize_spec_witness :
    (Table.mk [("n", ColData.numeric [some 1, some 3])]).names =
      (selectNumericCols exC7).names ∧
    (∀ c ∈ (Table.mk [("n", ColData.numeric [some 1, some 3])]).cols,
      ∃ vs, c.2 = ColData.numeric vs) ∧
    rowsList (Table.mk [("n", ColData.numeric [some 1, some 3])]) =
      (rowsList (selectNumericCols exC7)).filter
        (fun r => r.all (fun c => !(c == Cell.cmissing))) :=
  (visualize_spec exC7).2 (Table.mk [("n", ColData.numeric [some 1, some 3])])
    (by decide)

/-! ### Claim C5: per-file dispatch and error scoping -/

/-- Claim C5: a file whose lowercased extension is neither `.csv` nor
`.xlsx` is rejected as unsupported whatever its bytes hold (so before
any decode is attempted); a `.csv`/`.xlsx` file whose bytes fail their
decoder yields the decode error; and processing is file-scoped: the
batch outcome list splits over concatenation, and every file of the
batch contributes exactly one outcome, in upload order. -/
theorem uploadBatch_spec :
    (∀ (name : String) (b b' : FileBytes),
      lowerExt name ≠ ".csv" → lowerExt name ≠ ".xlsx" →
      readFile ⟨name, b⟩ = .error .unsupportedFormat ∧
      readFile ⟨name, b⟩ = readFile ⟨name, b'⟩) ∧
    (∀ (name : String) (b : FileBytes),
      lowerExt name = ".csv" → b.asCsv = none →
      readFile ⟨name, b⟩ = .error .decodeError) ∧
    (∀ (name : String) (b : FileBytes),
      lowerExt name = ".xlsx" → b.asXlsx = none →
      readFile ⟨name, b⟩ = .error .decodeError) ∧
    (∀ fs gs : List UploadedFile,
      processBatch (fs ++ gs) = processBatch fs ++ processBatch gs) ∧
    (∀ fs : List UploadedFile,
      (processBatch fs).map Prod.fst = fs.map UploadedFile.name) := by
  refine ⟨?_, ?_, ?_, ?_, ?_⟩
  · intro name b b' h1 h2
    have hc : (lowerExt name == ".csv") = false := beq_eq_false_iff_ne.mpr h1
    have hx : (lowerExt name == ".xlsx") = false := beq_eq_false_iff_ne.mpr h2
    constructor <;> simp [readFile, hc, hx]
  · intro name b h1 h2
    have hc : (lowerExt name == ".csv") = true := beq_iff_eq.mpr h1
    simp [readFile, hc, h2]
  · intro name b h1 h2
    have hx : (lowerExt name == ".xlsx") = true := beq_iff_eq.mpr h1
    by_cases hc : (lowerExt name == ".csv") = true
    · exact absurd (beq_iff_eq.mp hc) (by rw [h1]; decide)
    · simp [readFile, Bool.eq_false_iff.mpr hc, hx, h2]
  · intro fs gs
    induction fs with
    | nil => rfl
    | cons f fs ih => simp [processBatch, ih]
  · intro fs
    induction fs with
    | nil => rfl
    | cons f fs ih => simp [processBatch, ih]

/-- Witness for C5 at the Scenario D batch `exC5`: `data.txt` is
rejected as unsupported even though its bytes would parse, `bad.csv`
gives the decode error, and the batch still yields one outcome per
file, in order, ending with `good.csv` succeeding. -/
theorem uploadBatch_spec_witness :
    readFile ⟨"data.txt", ⟨some exC1, some exC1⟩⟩ =
      .error .unsupportedFormat ∧
    readFile ⟨"bad.csv", ⟨none, none⟩⟩ = .error .decodeError ∧
    processBatch exC5 =
      [("data.txt", .error .unsupportedFormat),
       ("bad.csv", .error .decodeError),
       ("good.csv", .ok exC1)] :=
  ⟨(uploadBatch_spec.1 "data.txt" ⟨some exC1, some exC1⟩ ⟨none, none⟩
      (by decide) (by decide)).1,
   uploadBatch_spec.2.1 "bad.csv" ⟨none, none⟩ (by decide) rfl,
   rfl⟩

/-! ### Claim C8: download artifact name and MIME type -/

/-- Claim C8 fails on the code: for the upload name `data.csv.csv`
converted to spreadsheet format, `str.replace` rewrites every
occurrence of `".csv"`, producing `data.xlsx.xlsx`, not the claimed
`<basename>.xlsx` = `data.csv.xlsx`.  The MIME type itself is as
claimed. -/
theorem outputName_claim_counterexample :
    outputName "data.csv.csv" Format.xlsx = "data.xlsx.xlsx" ∧
    outputName "data.csv.csv" Format.xlsx ≠ "data.csv" ++ ".xlsx" ∧
    mimeFor Format.xlsx =
      "application/vnd.openxmlformats-officedocument.spreadsheetml.sheet" := by
  refine ⟨by decide, by decide, rfl⟩

/-- Scanning `base ++ pat` when no occurrence of `pat` starts inside
`base` replaces exactly the final occurrence. -/
theorem replaceAllAux_append_self (rep pat : List Char) (hp : pat ≠ []) :
    ∀ (base : List Char),
      (∀ i, i < base.length → ¬(pat.isPrefixOf ((base ++ pat).drop i) = true)) →
      ∀ fuel, (base ++ pat).length ≤ fuel →
        replaceAllAux rep pat fuel (base ++ pat) = base ++ rep := by
  intro base
  induction base with
  | nil =>
    intro _ fuel hfuel
    cases pat with
    | nil => exact absurd rfl hp
    | cons p ps =>
      cases fuel with
      | zero => simp at hfuel
      | succ f =>
        have hpre : (p :: ps).isPrefixOf (p :: ps) = true := by
          rw [List.isPrefixOf_iff_prefix]
        simp [replaceAllAux, hpre, List.drop_length]
  | cons c b ih =>
    intro hocc fuel hfuel
    cases fuel with
    | zero => simp at hfuel
    | succ f =>
      have h0 : ¬(pat.isPrefixOf (c :: (b ++ pat)) = true) := by
        have := hocc 0 (by simp)
        simpa using this
      have hrec := ih
        (fun i hi => by
          have := hocc (i + 1) (by simpa using Nat.succ_lt_succ hi)
          simpa using this)
        f (by simpa using Nat.le_of_succ_le_succ hfuel)
      show replaceAllAux rep pat (f + 1) (c :: (b ++ pat)) = c :: (b ++ rep)
      rw [replaceAllAux, if_neg h0, hrec]

/-- Claim C8 amended: the artifact name is the upload name with every
occurrence of its lowercased extension replaced by the target
extension; in particular, when the upload name decomposes as
`base ++ ext` with `ext` its (non-empty, lowercase) extension and no
occurrence of `ext` starting inside `base`, the artifact name is
`base ++ extFor fmt` as the original claim states; the MIME types are
as claimed. -/
theorem outputName_amended (name base ext : String) (fmt : Format)
    (hext : lowerExt name = ext)
    (hne : ext ≠ "")
    (hsplit : name.toList = base.toList ++ ext.toList)
    (hocc : ∀ i, i < base.toList.length →
      ¬(ext.toList.isPrefixOf (name.toList.drop i) = true)) :
    outputName name fmt = base ++ extFor fmt ∧
    mimeFor Format.csv = "text/csv" ∧
    mimeFor Format.xlsx =
      "application/vnd.openxmlformats-officedocument.spreadsheetml.sheet" := by
  refine ⟨?_, rfl, rfl⟩
  have hpat : ext.toList ≠ [] := by
    intro h0
    apply hne
    cases ext with
    | mk l => cases h0; rfl
  rw [outputName, hext, pyReplace, if_neg hpat]
  rw [hsplit] at hocc
  have := replaceAllAux_append_self (extFor fmt).toList ext.toList hpat
    base.toList hocc (base.toList ++ ext.toList).length (Nat.le_refl _)
  rw [hsplit, this]
  cases base with
  | mk l =>
    cases hf : extFor fmt with
    | mk l2 => rfl

/-- Witness for C8 amended at `data.csv` converted to spreadsheet: the
artifact is `data.xlsx`. -/
theorem outputName_amended_witness :
    outputName "data.csv" Format.xlsx = "data" ++ ".xlsx" ∧
    mimeFor Format.csv = "text/csv" ∧
    mimeFor Format.xlsx =
      "application/vnd.openxmlformats-officedocument.spreadsheetml.sheet" :=
  outputName_amended "data.csv" "data" ".csv" Format.xlsx (by decide)
    (by decide) (by decide) (by decide)

/-! ### Claim C9: the claimed artificial pause -/

/-- Claim C9 fails on the code: the convert block's effect trace for a
concrete conversion contains no sleep effect at all — the download is
offered with no pause after conversion (`src/index.py` has no
`time.sleep` call). -/
theorem convert_pause_counterexample :
    (convertSteps "data.csv" Format.csv).any Effect.isSleep = false ∧
    Effect.offerDownload "data.csv" "text/csv" ∈
      convertSteps "data.csv" Format.csv := by
  refine ⟨rfl, by decide⟩

/-- Claim C9 amended: no artificial pause occurs anywhere in the
convert/download flow: for every file name and chosen format the
effect trace holds no sleep effect, and the download offer follows the
conversion immediately (the trace is exactly encode, rewind, offer). -/
theorem convert_no_delay (name : String) (fmt : Format) :
    (convertSteps name fmt).any Effect.isSleep = false ∧
    convertSteps name fmt =
      [Effect.encodeTable fmt, Effect.rewindBuffer,
       Effect.offerDownload (outputName name fmt) (mimeFor fmt)] :=
  ⟨rfl, rfl⟩

/-! ### Claim C3: encode/decode round trip -/

